import Mathlib

/-!
Shallow embedding of the Chromium-artifact extraction core of the
web-cache-linux repository, together with proofs settling the frozen
claims about its specification.

Conventions of the embedding:
* Python `str` values are modelled as `List Char` (`PyStr`); `bytes`
  values as `List Nat` (one entry per byte).
* Fallible Python code is modelled with `Except PyExn`; an uncaught
  Python exception becomes `.error e`.
* Machine integers from SQLite rows are modelled as `Int`; Python's
  dynamic timestamp arguments (int, str or None) as `PyVal`.
* Filesystem effects are modelled by explicit state passing over a
  finite map from paths to byte contents.
-/

/-- Python strings, modelled as lists of code points. -/
abbrev PyStr := List Char

/-- Coerce a Lean string literal to the `PyStr` model. -/
def pystr (s : String) : PyStr := s.data

/-- The Python exceptions that the embedded code can raise. -/
inductive PyExn where
  | typeError
  | valueError
  | attributeError
  deriving DecidableEq, Repr

/-- Decidable equality for embedded fallible results. -/
instance {e a : Type} [DecidableEq e] [DecidableEq a] : DecidableEq (Except e a) := fun x y =>
  match x, y with
  | .ok u, .ok v =>
    if h : u = v then .isTrue (congrArg Except.ok h)
    else .isFalse (fun he => h (Except.ok.inj he))
  | .error u, .error v =>
    if h : u = v then .isTrue (congrArg Except.error h)
    else .isFalse (fun he => h (Except.error.inj he))
  | .ok _, .error _ => .isFalse (fun he => Except.noConfusion he)
  | .error _, .ok _ => .isFalse (fun he => Except.noConfusion he)

/-- A dynamic Python value, as passed to the timestamp converters:
an `int`, a `str`, or `None`. -/
inductive PyVal where
  | vNone
  | vInt (n : Int)
  | vStr (s : PyStr)
  deriving DecidableEq, Repr

/-- Decimal digit character. -/
def digitCh (n : Nat) : Char := Char.ofNat (48 + n)

/-- Fuel-driven digit expansion of a natural number (most significant first). -/
def natCharsF : Nat → Nat → List Char
  | 0, _ => []
  | f + 1, n => if n < 10 then [digitCh n] else natCharsF f (n / 10) ++ [digitCh (n % 10)]

/-- Decimal rendering of a natural number, as Python `str(n)` produces it. -/
def natChars (n : Nat) : List Char := natCharsF (n + 1) n

/-- Value of a decimal digit character, if it is one. -/
def digitVal (c : Char) : Option Nat :=
  if 48 ≤ c.toNat ∧ c.toNat ≤ 57 then some (c.toNat - 48) else none

/-- Accumulating decimal parser over characters. -/
def parseDigits : List Char → Nat → Option Nat
  | [], acc => some acc
  | c :: cs, acc =>
    match digitVal c with
    | some d => parseDigits cs (acc * 10 + d)
    | none => none

/-- Python `int(s)` on a string, modelled for plain decimal literals with an
optional sign; anything else raises `ValueError` (here: `none`). -/
def pyIntOfStr : PyStr → Option Int
  | [] => none
  | '-' :: cs =>
    match cs, parseDigits cs 0 with
    | _ :: _, some n => some (-(n : Int))
    | _, _ => none
  | cs =>
    match parseDigits cs 0 with
    | some n => some (n : Int)
    | none => none

/-- Python `s.startswith(pre)` on the string model. -/
def pyStartsWith (s pre : PyStr) : Bool := pre.isPrefixOf s

/-- Python `sub in s` substring test on the string model. -/
def pyContains : PyStr → PyStr → Bool
  | s, sub =>
    if sub.isPrefixOf s then true
    else
      match s with
      | [] => false
      | _ :: t => pyContains t sub

/-- Lookup in a Python dict modelled as an association list
(key order is first-match, matching dict semantics for distinct keys). -/
def dictLookup (k : PyStr) : List (PyStr × PyStr) → Option PyStr
  | [] => none
  | (k', v) :: rest => if k = k' then some v else dictLookup k rest

/-- Boolean lexicographic non-strict order on the string model; the empty
string is the least element.  This is the "calendar-string ordering" used to
state the monotonicity claim. -/
def strLexLe : List Char → List Char → Bool
  | [], _ => true
  | _ :: _, [] => false
  | a :: as, b :: bs => Nat.blt a.toNat b.toNat || (a.toNat == b.toNat && strLexLe as bs)

/-- Boolean lexicographic strict order on the string model. -/
def strLexLt : List Char → List Char → Bool
  | [], [] => false
  | [], _ :: _ => true
  | _ :: _, [] => false
  | a :: as, b :: bs => Nat.blt a.toNat b.toNat || (a.toNat == b.toNat && strLexLt as bs)

/-! ## TimestampCodec: the Gregorian calendar arithmetic behind
`datetime(1601,1,1) + timedelta(seconds=...)` and `strftime` -/

/-- Gregorian leap-year test (as implemented by Python's proleptic
Gregorian `datetime`). -/
def isLeap (y : Nat) : Bool := (y % 4 == 0 && y % 100 != 0) || y % 400 == 0

/-- Number of days in a Gregorian year. -/
def daysInYear (y : Nat) : Nat := if isLeap y then 366 else 365

/-- Length of month `m` (1-based) of a year with leap flag `leap`. -/
def monthLen (leap : Bool) : Nat → Nat
  | 2 => if leap then 29 else 28
  | 4 => 30
  | 6 => 30
  | 9 => 30
  | 11 => 30
  | _ => 31

/-- Generic mixed-radix walk: starting at position `p` with `d` remaining
units, repeatedly subtract `len p` while it fits, advancing `p`.  Driven by
fuel so that it is structurally recursive and kernel-reducible. -/
def stepWalkF (len : Nat → Nat) : Nat → Nat → Nat → Nat × Nat
  | 0, p, d => (p, d)
  | f + 1, p, d => if d < len p then (p, d) else stepWalkF len f (p + 1) (d - len p)

/-- The walk with always-sufficient fuel (`d` strictly decreases each step,
so `d + 1` units of fuel can never run out when every `len p` is positive). -/
def walkAt (len : Nat → Nat) (p d : Nat) : Nat × Nat := stepWalkF len (d + 1) p d

/-- Civil date `(year, month, day)` of day number `d` counted from
0001-01-01 (day 0) in the proleptic Gregorian calendar. -/
def civilFromDays (d : Nat) : Nat × Nat × Nat :=
  let yr := walkAt daysInYear 1 d
  let md := walkAt (monthLen (isLeap yr.1)) 1 yr.2
  (yr.1, md.1, md.2 + 1)

/-- Two-digit zero-padded rendering (`%m`, `%d`, `%H`, `%M`, `%S`); every
reachable argument is below 100. -/
def pad2 (n : Nat) : PyStr := [digitCh (n / 10 % 10), digitCh (n % 10)]

/-- Four-digit zero-padded rendering used by `%Y` for years ≥ 1000. -/
def pad4 (n : Nat) : PyStr := pad2 (n / 100) ++ pad2 (n % 100)

/-- Year field of `%Y`: zero-padded to four digits from 1000 on; below that
glibc's `strftime` renders the plain decimal digits. -/
def yearChars (y : Nat) : PyStr := if y < 1000 then natChars y else pad4 y

/-- Rendering of `strftime('%Y.%m.%d %H:%M:%S')` from the six fields. -/
def renderCal (y m d h mi s : Nat) : PyStr :=
  yearChars y ++ ('.' :: pad2 m) ++ ('.' :: pad2 d) ++
    (' ' :: pad2 h) ++ (':' :: pad2 mi) ++ (':' :: pad2 s)

/-- Calendar string of `s` seconds after 0001-01-01T00:00:00 (proleptic
Gregorian), the combination `datetime` + `strftime` computes. -/
def calFromSec0 (s : Nat) : PyStr :=
  let days := s / 86400
  let sod := s % 86400
  let c := civilFromDays days
  renderCal c.1 c.2.1 c.2.2 (sod / 3600) (sod % 3600 / 60) (sod % 60)

/-- Number of days from 0001-01-01 to 1601-01-01 (the Chromium epoch) in
the proleptic Gregorian calendar: 1600·365 + 388 leap days. -/
def chromeEpochDays : Nat := 584388

/-- Seconds from 0001-01-01T00:00:00 to the Chromium epoch. -/
def chromeEpochSec0 : Int := 50491123200

/-- Largest number of seconds past the Chromium epoch whose calendar date
still fits `datetime` (year ≤ 9999); one second later overflows. -/
def maxChromeSec : Int := 265046774399

/-- Calendar string for `sec` seconds past the Chromium epoch, or `none`
when `datetime` arithmetic raises `OverflowError` (outside year 1..9999).
Negative `sec` (dates before 1601) is in range down to year 1. -/
def chromeCalendarFromSeconds (sec : Int) : Option PyStr :=
  if -chromeEpochSec0 ≤ sec ∧ sec ≤ maxChromeSec then
    some (calFromSec0 (sec + chromeEpochSec0).toNat)
  else none

/-! ## The three timestamp-conversion variants.

All three receive, in the source, a dynamically typed value.  The float
division `chrome_timestamp / 1_000_000` together with `timedelta` /
`fromtimestamp` and second-precision `strftime` is modelled exactly as the
floor of the microsecond count to whole seconds (`Int.fdiv`).  The variants
that go through `datetime.fromtimestamp(unix_timestamp)` are modelled under
a pinned-UTC timezone policy, in which subtracting 11644473600 seconds and
re-adding the Unix epoch is the identity on the calendar. -/

/-- `Common/time_utils.convert_chrome_time` on an `int` argument: 0 maps to
the empty sentinel; `datetime(1601,1,1) + timedelta(seconds=ts/1e6)` is
formatted, `ValueError`/`OverflowError`/`OSError` collapse to `''`. -/
def commonOnInt (n : Int) : PyStr :=
  if n = 0 then []
  else
    match chromeCalendarFromSeconds (Int.fdiv n 1000000) with
    | some s => s
    | none => []

/-- `Common/time_utils.convert_chrome_time`: `not ts or ts == 0` catches
`None`, `0` and the empty string; a non-empty `str` reaches the division
`ts / 1_000_000`, whose `TypeError` is not in the `except` tuple and
therefore propagates. -/
def common_convert_chrome_time : PyVal → Except PyExn PyStr
  | .vNone => .ok []
  | .vInt n => .ok (commonOnInt n)
  | .vStr s => if s = [] then .ok [] else .error .typeError

/-- `ChromiumHistory.TimeConverter.convert_chrome_time` on an `int`:
identical calendar under pinned UTC; `ValueError`/`OSError`/`OverflowError`
from `fromtimestamp` collapse to `''`. -/
def historyOnInt (n : Int) : PyStr :=
  if n = 0 then []
  else
    match chromeCalendarFromSeconds (Int.fdiv n 1000000) with
    | some s => s
    | none => []

/-- `ChromiumHistory.TimeConverter.convert_chrome_time`: like the Common
variant, its `except` tuple lacks `TypeError`, so a non-empty `str`
argument raises at the division. -/
def history_convert_chrome_time : PyVal → Except PyExn PyStr
  | .vNone => .ok []
  | .vInt n => .ok (historyOnInt n)
  | .vStr s => if s = [] then .ok [] else .error .typeError

/-- `Interfaces/time.convert_chrome_time`: additionally treats the string
`'0'` as unset, converts other strings with `int(...)`, and returns the
localized error marker instead of `''` on any caught conversion error. -/
def interfaces_convert_chrome_time : PyVal → Except PyExn PyStr
  | .vNone => .ok []
  | .vInt n =>
    .ok (if n = 0 then []
         else
           match chromeCalendarFromSeconds (Int.fdiv n 1000000) with
           | some s => s
           | none => pystr "Ошибка конвертации")
  | .vStr s =>
    if s = [] ∨ s = ['0'] then .ok []
    else
      match pyIntOfStr s with
      | some n =>
        .ok (match chromeCalendarFromSeconds (Int.fdiv n 1000000) with
             | some c => c
             | none => pystr "Ошибка конвертации")
      | none => .ok (pystr "Ошибка конвертации")

/-! ## CookieValueResolver -/

/-- The Unicode character-class tables behind Python's `str.isprintable`
and `str.isspace`, taken as an uninterpreted parameter: every theorem about
the resolver holds for an arbitrary table, in particular for Python's. -/
structure PyCharClass where
  isPrintable : Char → Bool
  isSpace : Char → Bool

/-- UTF-8 continuation byte test. -/
def utf8Cont (b : Nat) : Bool := 128 ≤ b && b < 192

/-- Fuel-driven lenient UTF-8 decoder: well-formed sequences (without
overlongs and surrogates) decode to their code point, malformed ones are
dropped, as `bytes.decode('utf-8', errors='ignore')` does.  The fuel is
one unit per consumed lead byte, so `length` fuel always suffices. -/
def utf8DecodeIgnoreF : Nat → List Nat → List Char
  | 0, _ => []
  | _ + 1, [] => []
  | f + 1, b :: bs =>
    if b < 128 then Char.ofNat b :: utf8DecodeIgnoreF f bs
    else if 194 ≤ b && b ≤ 223 then
      match bs with
      | b2 :: bs2 =>
        if utf8Cont b2 then
          Char.ofNat ((b - 192) * 64 + (b2 - 128)) :: utf8DecodeIgnoreF f bs2
        else utf8DecodeIgnoreF f bs
      | [] => []
    else if 224 ≤ b && b ≤ 239 then
      match bs with
      | b2 :: b3 :: bs3 =>
        if utf8Cont b2 && utf8Cont b3 && (b != 224 || 160 ≤ b2) && (b != 237 || b2 < 160) then
          Char.ofNat ((b - 224) * 4096 + (b2 - 128) * 64 + (b3 - 128)) :: utf8DecodeIgnoreF f bs3
        else utf8DecodeIgnoreF f bs
      | _ => []
    else if 240 ≤ b && b ≤ 244 then
      match bs with
      | b2 :: b3 :: b4 :: bs4 =>
        if utf8Cont b2 && utf8Cont b3 && utf8Cont b4 &&
            (b != 240 || 144 ≤ b2) && (b != 244 || b2 < 144) then
          Char.ofNat ((b - 240) * 262144 + (b2 - 128) * 4096 + (b3 - 128) * 64 + (b4 - 128)) ::
            utf8DecodeIgnoreF f bs4
        else utf8DecodeIgnoreF f bs
      | _ => []
    else utf8DecodeIgnoreF f bs

/-- `bytes.decode('utf-8', errors='ignore')` on the byte-list model. -/
def utf8DecodeIgnore (bs : List Nat) : PyStr := utf8DecodeIgnoreF bs.length bs

/-- Byte-level `bytes.startswith` test against a literal byte prefix. -/
def bytesStartWith (bs lit : List Nat) : Bool := lit.isPrefixOf bs

/-- `CookieDecryptor._decrypt_cookie_value`: empty blob gives `''`;
readable non-`v10`/`v11` text is cut to 500 characters; a `v10`/`v11` AEAD
blob becomes the labelled opaque placeholder naming scheme and byte count;
any other binary blob becomes the generic binary placeholder. -/
def decrypt_cookie_value (cc : PyCharClass) (encrypted_value : List Nat) : PyStr :=
  if encrypted_value = [] then []
  else
    let decoded := utf8DecodeIgnore encrypted_value
    if (decoded ≠ [] ∧ ¬(pyStartsWith decoded (pystr "v10") ∨ pyStartsWith decoded (pystr "v11")))
        ∧ (decoded.take 100).any (fun c => cc.isPrintable c || cc.isSpace c) then
      decoded.take 500
    else if bytesStartWith encrypted_value [118, 49, 48] ∨
        bytesStartWith encrypted_value [118, 49, 49] then
      pystr "[зашифровано AES-GCM v" ++
        utf8DecodeIgnore ((encrypted_value.drop 1).take 2) ++
        pystr ": " ++ natChars encrypted_value.length ++ pystr " байт]"
    else
      pystr "[бинарные данные: " ++ natChars encrypted_value.length ++ pystr " байт]"

/-- `CookieValueResolver.get_cookie_value`.  The oracle-hit branch executes
`self.cookie_decryptor._parameters.get('LOG').Info(...)`; `CookieDecryptor`
stores the parameter dict under the name-mangled attribute
`_CookieDecryptor__parameters`, so the `_parameters` attribute lookup
raises `AttributeError` before the value can be returned. -/
def get_cookie_value (cc : PyCharClass) (name host_key value : PyStr)
    (encrypted_value : List Nat) (decrypted_cookies : List (PyStr × PyStr)) :
    Except PyExn PyStr :=
  if value ≠ [] then .ok value
  else if name ≠ [] ∧ host_key ≠ [] ∧
      (dictLookup (host_key ++ pystr "|" ++ name) decrypted_cookies).isSome then
    .error .attributeError
  else if encrypted_value ≠ [] then
    let decrypted := decrypt_cookie_value cc encrypted_value
    if decrypted ≠ [] ∧ ¬pyStartsWith decrypted (pystr "[зашифровано") ∧
        ¬pyStartsWith decrypted (pystr "[бинарные") then
      .ok decrypted
    else .ok decrypted
  else .ok []

/-! ## ArtifactNormalizer: download progress.

The source computes `int((received_bytes / total_bytes) * 100)` in IEEE 754
binary64 floating point: the true division of the two integers produces the
correctly rounded double quotient, the multiplication by 100 rounds again,
and `int(...)` truncates toward zero.  The model below implements binary64
round-to-nearest, ties-to-even exactly, over an unbounded exponent; that
coincides with real binary64 whenever the quotient is in the normal finite
range, which holds for every pair of 64-bit SQLite integers with a nonzero
divisor. -/

/-- Fuel-driven `⌊log2 n⌋` (0 at 0), structurally recursive so the kernel
can evaluate it. -/
def natLog2F : Nat → Nat → Nat
  | 0, _ => 0
  | f + 1, n => if n < 2 then 0 else natLog2F f (n / 2) + 1

/-- `⌊log2 n⌋` of a natural number (0 at 0). -/
def natLog2 (n : Nat) : Nat := natLog2F n n

/-- Does `2^e ≤ a / b` hold, for positive naturals `a`, `b`? -/
def ratPow2Le (e : Int) (a b : Nat) : Bool :=
  if 0 ≤ e then decide (b * 2 ^ e.toNat ≤ a) else decide (b ≤ a * 2 ^ (-e).toNat)

/-- `⌊log2 (a / b)⌋` for positive naturals `a`, `b`. -/
def ratLog2 (a b : Nat) : Int :=
  let c : Int := (natLog2 a : Int) - (natLog2 b : Int)
  if ratPow2Le c a b then c else c - 1

/-- Round the positive rational `a / b` to a 53-bit significand with
round-to-nearest, ties-to-even; the binary64 value is `m · 2^e` for the
returned pair `(m, e)`, with `2^52 ≤ m ≤ 2^53`. -/
def fl53Pos (a b : Nat) : Nat × Int :=
  let e : Int := ratLog2 a b - 52
  let num := if 0 ≤ e then a else a * 2 ^ (-e).toNat
  let den := if 0 ≤ e then b * 2 ^ e.toNat else b
  let m := num / den
  let r := num % den
  (if den < 2 * r ∨ (den = 2 * r ∧ m % 2 = 1) then m + 1 else m, e)

/-- Binary64 multiplication of `m · 2^e` by the exact constant 100: the
exact product `(m·100) · 2^e` is rounded back to a 53-bit significand with
round-to-nearest, ties-to-even. -/
def flTimes100 (me : Nat × Int) : Nat × Int :=
  let M := me.1 * 100
  if M < 2 ^ 53 then (M, me.2)
  else
    let k := natLog2 M - 52
    let m := M / 2 ^ k
    let r := M % 2 ^ k
    (if 2 ^ k < 2 * r ∨ (2 ^ k = 2 * r ∧ m % 2 = 1) then m + 1 else m, me.2 + k)

/-- `int(...)` — truncation toward zero — of a nonnegative float `m · 2^e`. -/
def truncFloat (me : Nat × Int) : Nat :=
  if 0 ≤ me.2 then me.1 * 2 ^ me.2.toNat else me.1 / 2 ^ (-me.2).toNat

/-- Python `int((received / total) * 100)` on integers in binary64; signs
factor out of the division, the multiplication and the truncation, so the
magnitude is computed on naturals.  (A zero `total` raises
`ZeroDivisionError` in Python; the caller's guard makes it unreachable.) -/
def pyRatioTimes100Int (received total : Int) : Int :=
  if received = 0 then 0
  else
    let v := truncFloat (flTimes100 (fl53Pos received.natAbs total.natAbs))
    if (0 ≤ received ∧ 0 ≤ total) ∨ (received < 0 ∧ total < 0) then (v : Int) else -(v : Int)

/-- `DownloadsParser._parse_chrome_downloads` progress computation:
`min(100, int((received / total) * 100))` in binary64 arithmetic; the guard
`total_bytes and total_bytes > 0` forces 0 for a zero, absent-defaulted or
negative total. -/
def downloadProgress (received_bytes total_bytes : Int) : Int :=
  if total_bytes ≠ 0 ∧ total_bytes > 0 then
    min 100 (pyRatioTimes100Int received_bytes total_bytes)
  else 0

/-! ## ChromiumHistory record normalization -/

/-- The canonical history record tuple built by
`HistoryParser._process_rows`, with one named field per tuple position. -/
structure HistoryRecord where
  userName : PyStr
  browser : PyStr
  url : PyStr
  title : PyStr
  visitCount : Int
  typedCount : Int
  lastVisitTime : Int
  lastVisitDate : PyStr
  dataSource : PyStr
  deriving DecidableEq, Repr

/-- `HistoryParser._process_rows` on one raw `urls` row (`None` columns are
modelled as `Option.none`).  The final tuple slot — the `DataSource` field —
is `browser_name` in the source (line 131), not the history file path. -/
def processHistoryRow (username browser_name : PyStr) (url title : Option PyStr)
    (visit_count typed_count last_visit_time : Option Int) : HistoryRecord :=
  { userName := username
    browser := browser_name
    url := url.getD []
    title := title.getD []
    visitCount := visit_count.getD 0
    typedCount := typed_count.getD 0
    lastVisitTime := last_visit_time.getD 0
    lastVisitDate :=
      match last_visit_time with
      | none => []
      | some n => historyOnInt n
    dataSource := browser_name }

/-! ## ChromiumBookmarks -/

/-- A node in the parsed `Bookmarks` JSON tree.  `url` nodes carry the
optional `name`/`url` fields and the raw `date_added`/`date_modified`
values (absent fields default to integer 0 through `node.get(..., 0)`);
nodes whose `type` is neither `url` nor `folder` are `other`. -/
inductive BmNode where
  | url (name urlv : Option PyStr) (dateAdded dateModified : PyVal)
  | folder (name : Option PyStr) (children : List BmNode)
  | other
  deriving Repr

/-- Bookmark record tuple built by `_process_bookmark_node`. -/
structure BmRecord where
  userName : PyStr
  browser : PyStr
  folder : PyStr
  title : PyStr
  url : PyStr
  dateAddedUtc : Int
  dateAdded : PyStr
  dateModifiedUtc : Int
  dateModified : PyStr
  dataSource : PyStr
  deriving DecidableEq, Repr

/-- The `date_added`/`date_modified` coercion in `_process_bookmark_node`:
a string is converted with `int(...)` unless empty or `'0'`; a failing
conversion raises `ValueError` inside the guarded block. -/
def coerceBookmarkDate : PyVal → Except PyExn Int
  | .vNone => .ok 0
  | .vInt n => .ok n
  | .vStr s =>
    if s = [] ∨ s = ['0'] then .ok 0
    else
      match pyIntOfStr s with
      | some n => .ok n
      | none => .error .valueError

/-- The record-construction code calls `self._convert_chrome_time(...)`,
but that method is commented out in the `Parser` class (source lines
18–34), so the attribute lookup raises `AttributeError`. -/
def bookmarksConvertChromeTime : Except PyExn PyStr := .error .attributeError

/-- The guarded (`try`-block) part of the `url` arm of
`_process_bookmark_node`: coerce the two dates, then build the record —
which first needs `self._convert_chrome_time`, so it raises. -/
def bmUrlRecord (currentPath browserName dataSource : PyStr)
    (name urlv : Option PyStr) (dateAdded dateModified : PyVal) :
    Except PyExn BmRecord := do
  let da ← coerceBookmarkDate dateAdded
  let dm ← coerceBookmarkDate dateModified
  let daStr ← bookmarksConvertChromeTime
  let dmStr ← bookmarksConvertChromeTime
  .ok { userName := pystr "ivan"
        browser := browserName
        folder := currentPath
        title := name.getD (pystr "Без имени")
        url := urlv.getD []
        dateAddedUtc := da
        dateAdded := daStr
        dateModifiedUtc := dm
        dateModified := dmStr
        dataSource := dataSource }

mutual

/-- `Parser._process_bookmark_node`: a `url` node appends its record unless
the guarded block raised (the `except Exception` swallows the error and
skips the node); a `folder` node extends the path and recurses over its
children; other nodes contribute nothing. -/
def process_bookmark_node (node : BmNode) (currentPath browserName dataSource : PyStr) :
    List BmRecord :=
  match node with
  | .url name urlv dateAdded dateModified =>
    match bmUrlRecord currentPath browserName dataSource name urlv dateAdded dateModified with
    | .ok r => [r]
    | .error _ => []
  | .folder name children =>
    process_bookmark_children children
      (currentPath ++ pystr "/" ++ name.getD (pystr "Без имени")) browserName dataSource
  | .other => []

/-- Child-list traversal of `_process_bookmark_node`. -/
def process_bookmark_children (nodes : List BmNode) (currentPath browserName dataSource : PyStr) :
    List BmRecord :=
  match nodes with
  | [] => []
  | n :: rest =>
    process_bookmark_node n currentPath browserName dataSource ++
      process_bookmark_children rest currentPath browserName dataSource

end

/-- The root-folder label mapping of `_parse_chrome_bookmarks`. -/
def rootFolderLabel (rootName : PyStr) : PyStr :=
  if rootName = pystr "bookmark_bar" then pystr "Панель закладок"
  else if rootName = pystr "other" then pystr "Другие закладки"
  else if rootName = pystr "synced" then pystr "Синхронизированные"
  else rootName

/-- `Parser._parse_chrome_bookmarks` over already-loaded JSON: walks the
`roots` entries in order, skipping falsy root nodes, and accumulates the
records of each root under its mapped folder label. -/
def parse_chrome_bookmarks (roots : List (PyStr × Option BmNode))
    (browserName dataSource : PyStr) : List BmRecord :=
  match roots with
  | [] => []
  | (rootName, rootNode) :: rest =>
    (match rootNode with
     | some node => process_bookmark_node node (rootFolderLabel rootName) browserName dataSource
     | none => []) ++
      parse_chrome_bookmarks rest browserName dataSource

/-! ## SnapshotAcquirer: filesystem model -/

/-- A filesystem path, as its list of components; `os.path.join(d, f)`
appends a component and `os.path.basename` takes the last one. -/
abbrev FsPath := List String

/-- Filesystem state: an association list from paths to byte contents. -/
abbrev Fs := List (FsPath × List Nat)

/-- Content of `p`, if the file exists (first match wins). -/
def fsRead (fs : Fs) (p : FsPath) : Option (List Nat) :=
  match fs with
  | [] => none
  | (q, v) :: rest => if p = q then some v else fsRead rest p

/-- `os.path.exists`. -/
def fsExists (fs : Fs) (p : FsPath) : Bool := (fsRead fs p).isSome

/-- Remove every entry for `p` (`os.remove`). -/
def fsErase (fs : Fs) (p : FsPath) : Fs :=
  match fs with
  | [] => []
  | (q, v) :: rest => if p = q then fsErase rest p else (q, v) :: fsErase rest p

/-- Write `v` at `p`, replacing any previous entry. -/
def fsWrite (fs : Fs) (p : FsPath) (v : List Nat) : Fs := (p, v) :: fsErase fs p

/-- `os.path.basename` on the component model. -/
def lastName (p : FsPath) : String := p.getLast?.getD ""

/-- Temp-file name built by `CookiesFileParser.parse_cookies_file`
(line 170): `f'temp_cookies_{os.path.basename(cookies_path)}'`. -/
def temp_cookies_name (src : FsPath) : String := "temp_cookies_" ++ lastName src

/-- Temp-file name built by `DatabaseManager.__enter__` (lines 41–44):
`f'temp_history_{os.path.basename(self.history_path)}'`. -/
def temp_history_name (src : FsPath) : String := "temp_history_" ++ lastName src

/-- Temp-file name built by `DownloadsParser._parse_chrome_downloads`
(line 43): `f'temp_downloads_{os.path.basename(history_path)}'`. -/
def temp_downloads_name (src : FsPath) : String := "temp_downloads_" ++ lastName src

/-- Exit disposition of the SQLite phase run on the snapshot: a normal
return, a `sqlite3.Error` (caught by the first handler), or any other
exception (caught by the second). -/
inductive DbOutcome where
  | ok
  | sqliteError
  | otherError
  deriving DecidableEq, Repr

/-- Filesystem effect of `CookiesFileParser.parse_cookies_file`: early
return when the source is missing; otherwise `shutil.copy2` the source to
the temp path, run the SQLite phase (which only reads the snapshot,
whatever its disposition — every arm reaches the `finally`), and in
`finally` remove the temp path if it exists. -/
def parse_cookies_file_fs (temp_dir : FsPath) (cookies_path : FsPath)
    (outcome : DbOutcome) (fs : Fs) : Fs :=
  if fsExists fs cookies_path = false then fs
  else
    let temp_path := temp_dir ++ [temp_cookies_name cookies_path]
    let fs1 := fsWrite fs temp_path ((fsRead fs cookies_path).getD [])
    let fs2 :=
      match outcome with
      | .ok => fs1
      | .sqliteError => fs1
      | .otherError => fs1
    if fsExists fs2 temp_path then fsErase fs2 temp_path else fs2

/-- Filesystem effect of the `DatabaseManager` context-manager scope used
by `HistoryParser.parse_history` (which passes
`temp_dir=os.path.dirname(history_path)`): `__enter__` copies the source
to the temp path, the body runs with some disposition, and `__exit__`
closes the connection and removes the temp path if it exists. -/
def database_manager_scope_fs (temp_dir : FsPath) (history_path : FsPath)
    (outcome : DbOutcome) (fs : Fs) : Fs :=
  let temp_path := temp_dir ++ [temp_history_name history_path]
  let fs1 := fsWrite fs temp_path ((fsRead fs history_path).getD [])
  let fs2 :=
    match outcome with
    | .ok => fs1
    | .sqliteError => fs1
    | .otherError => fs1
  if fsExists fs2 temp_path then fsErase fs2 temp_path else fs2

/-- Filesystem effect of `HistoryParser.parse_history`: early return when
the source is missing, otherwise the `DatabaseManager` scope with the
source's directory as scratch directory. -/
def parse_history_fs (history_path : FsPath) (outcome : DbOutcome) (fs : Fs) : Fs :=
  if fsExists fs history_path = false then fs
  else database_manager_scope_fs history_path.dropLast history_path outcome fs

/-- Closed form for the number of days from 0001-01-01 to the start of
year `y` in the proleptic Gregorian calendar. -/
def daysBeforeYear (y : Nat) : Nat :=
  365 * (y - 1) + (y - 1) / 4 - (y - 1) / 100 + (y - 1) / 400

/-- Days of the year before the start of month `m` (1-based). -/
def cumMonthDays (leap : Bool) : Nat → Nat
  | 0 => 0
  | m + 1 => cumMonthDays leap m + if m = 0 then 0 else monthLen leap m

/-! ## Claim theorems: cookie resolver, bookmarks, converters, records -/

/-- C1.  The claim states that for a cookie row with empty plaintext value
whose `host|name` key is present in the decrypted-cookie oracle map,
`get_cookie_value` returns the oracle value without raising.  Evaluating
the embedded code at such an input shows it instead raises
`AttributeError`: the oracle-hit branch logs through
`self.cookie_decryptor._parameters`, an attribute that does not exist
because `CookieDecryptor.__init__` stores the dict under the name-mangled
`_CookieDecryptor__parameters`. -/
theorem C1_oracle_hit_raises_attribute_error :
    get_cookie_value ⟨fun _ => true, fun _ => false⟩ (pystr "sid") (pystr "example.com")
      [] [] [(pystr "example.com|sid", pystr "secret")] = .error .attributeError := by
  decide

/-- C2.  The claim states that a `Bookmarks` JSON whose roots contain
exactly one URL node under `bookmark_bar` with `date_added="0"` yields
exactly one record with empty date-added and the mapped root-folder label.
Evaluating the embedded parser on exactly that input yields the empty
record list: the record construction calls the commented-out
`self._convert_chrome_time`, the resulting `AttributeError` is swallowed
by the `except Exception` handler, and the bookmark is skipped. -/
theorem C2_bookmarks_url_node_yields_no_record :
    parse_chrome_bookmarks
      [(pystr "bookmark_bar",
        some (.folder (some (pystr "Bookmarks bar"))
          [.url (some (pystr "Example")) (some (pystr "https://example.com"))
            (.vStr (pystr "0")) (.vStr (pystr "0"))]))]
      (pystr "Google Chrome")
      (pystr "/home/u/.config/google-chrome/Default/Bookmarks") = [] := by
  decide

/-- C4, counterexample.  The claim states that each variant maps the string
`"0"` to the empty sentinel without raising; the Common variant instead
raises `TypeError` at `chrome_timestamp / 1_000_000`, because `TypeError`
is not in its `except (ValueError, OverflowError, OSError)` tuple. -/
theorem C4_counterexample_common_str0_raises :
    common_convert_chrome_time (.vStr (pystr "0")) = .error .typeError := by
  decide

/-- C4, amended.  Inputs `0` and `None` convert to the empty sentinel
without raising in all three variants, and the string `"0"` does so in the
Interfaces variant only; the Common and History variants raise `TypeError`
on the string `"0"`. -/
theorem C4_amended_unset_inputs :
    common_convert_chrome_time .vNone = .ok [] ∧
    common_convert_chrome_time (.vInt 0) = .ok [] ∧
    history_convert_chrome_time .vNone = .ok [] ∧
    history_convert_chrome_time (.vInt 0) = .ok [] ∧
    interfaces_convert_chrome_time .vNone = .ok [] ∧
    interfaces_convert_chrome_time (.vInt 0) = .ok [] ∧
    interfaces_convert_chrome_time (.vStr (pystr "0")) = .ok [] ∧
    history_convert_chrome_time (.vStr (pystr "0")) = .error .typeError := by
  decide

/-- C5, counterexample.  The claim states that distinct source paths get
distinct temp snapshot names; the cookies stores of two different browsers
are distinct paths with the same basename `Cookies`, and their generated
temp names coincide. -/
theorem C5_counterexample_same_basename :
    (["home", "u", ".config", "google-chrome", "Default", "Cookies"] : FsPath) ≠
      ["home", "u", ".config", "chromium", "Default", "Cookies"] ∧
    temp_cookies_name ["home", "u", ".config", "google-chrome", "Default", "Cookies"] =
      temp_cookies_name ["home", "u", ".config", "chromium", "Default", "Cookies"] := by
  constructor
  · decide
  · rfl

set_option maxRecDepth 100000 in
/-- C6.  The claim states that every canonical record carries both the
browser variant name and a provenance path.  The history record built by
`HistoryParser._process_rows` from the spec's synthetic `urls` row carries
the browser name twice — its `DataSource` slot holds `browser_name`
(source line 131) — and the source file path appears in none of its string
fields. -/
theorem C6_history_record_lacks_provenance_path :
    (processHistoryRow (pystr "test_user") (pystr "TestBrowser")
        (some (pystr "https://example.com")) (some (pystr "Example"))
        (some 5) (some 2) (some 13318267369295313)).dataSource = pystr "TestBrowser" ∧
    pystr "/home/u/.config/google-chrome/Default/History" ∉
      (let r := processHistoryRow (pystr "test_user") (pystr "TestBrowser")
        (some (pystr "https://example.com")) (some (pystr "Example"))
        (some 5) (some 2) (some 13318267369295313)
       [r.userName, r.browser, r.url, r.title, r.lastVisitDate, r.dataSource]) := by
  decide

/-- C8, counterexample.  The claim's formula is the exact
`min(100, floor(received*100/total))`; the code computes
`int((received / total) * 100)` in binary64 floating point, and the two
differ at `received = 29`, `total = 100`: the rounded product is
28.999999999999996, so the program yields 28 where the claimed floor
formula yields 29. -/
theorem C8_counterexample_float_rounding :
    ¬ downloadProgress 29 100 = min 100 (Int.fdiv (29 * 100) 100) := by
  decide

/-- C8, amended.  For positive `total` the progress is
`min(100, int((received/total)*100))` computed in binary64 floating point,
which can fall below the claimed exact floor when the rounded product
lands just under an integer (29/100 gives 28, not 29); it never exceeds
100, and it is 0 whenever `total` is zero (the absent-column default) or
negative, and also whenever `received` is 0; the spec's concrete examples
hold: `total=0, received=50` gives 0 and `received=50, total=100` gives
50. -/
theorem C8_amended_progress (received total : Int) :
    (total ≤ 0 → downloadProgress received total = 0) ∧
    (0 < total → received = 0 → downloadProgress received total = 0) ∧
    downloadProgress received total ≤ 100 ∧
    downloadProgress 50 0 = 0 ∧
    downloadProgress 50 100 = 50 ∧
    downloadProgress 29 100 = 28 := by
  refine ⟨fun ht => ?_, fun ht hr => ?_, ?_, by decide, by decide, by decide⟩
  · simp only [downloadProgress, if_neg (by omega : ¬(total ≠ 0 ∧ total > 0))]
  · subst hr
    simp only [downloadProgress, if_pos (⟨by omega, ht⟩ : total ≠ 0 ∧ total > 0)]
    show min 100 (pyRatioTimes100Int 0 total) = 0
    simp [pyRatioTimes100Int]
  · unfold downloadProgress
    split
    · exact min_le_left _ _
    · omega

/-- Witness for the amended C8 statement, discharging both hypothetical
conjuncts at concrete inputs. -/
theorem C8_amended_progress_witness :
    downloadProgress 7 (-3) = 0 ∧ downloadProgress 0 100 = 0 :=
  ⟨(C8_amended_progress 7 (-3)).1 (by decide),
    ((C8_amended_progress 0 100).2.1 (by decide) rfl)⟩

/-! ## Filesystem lemmas and the snapshot-cleanup claim -/

theorem fsRead_fsErase_self (fs : Fs) (p : FsPath) : fsRead (fsErase fs p) p = none := by
  induction fs with
  | nil => rfl
  | cons e rest ih =>
    obtain ⟨q, v⟩ := e
    by_cases h : p = q
    · simpa [fsErase, h] using ih
    · simpa [fsErase, fsRead, h] using ih

theorem fsRead_fsErase_ne (fs : Fs) (p q : FsPath) (h : q ≠ p) :
    fsRead (fsErase fs p) q = fsRead fs q := by
  induction fs with
  | nil => rfl
  | cons e rest ih =>
    obtain ⟨r, v⟩ := e
    by_cases hp : p = r
    · subst hp
      simpa [fsErase, fsRead, h] using ih
    · by_cases hq : q = r
      · simp [fsErase, fsRead, hp, hq]
      · simpa [fsErase, fsRead, hp, hq] using ih

theorem fsRead_fsWrite_ne (fs : Fs) (p : FsPath) (v : List Nat) (q : FsPath) (h : q ≠ p) :
    fsRead (fsWrite fs p v) q = fsRead fs q := by
  simp only [fsWrite, fsRead, if_neg h]
  exact fsRead_fsErase_ne fs p q h

theorem fsExists_fsWrite_self (fs : Fs) (p : FsPath) (v : List Nat) :
    fsExists (fsWrite fs p v) p = true := by
  simp [fsExists, fsWrite, fsRead]

/-- A path of the form `dir ++ [pre ++ basename(src)]` with a non-empty
`pre` can never equal `src` itself: their basenames have different
lengths. -/
theorem concat_prefixed_lastName_ne (temp_dir src : FsPath) (pre : String)
    (hpre : pre.length ≠ 0) : temp_dir ++ [pre ++ lastName src] ≠ src := by
  intro h
  have h1 : (temp_dir ++ [pre ++ lastName src]).getLast? = some (pre ++ lastName src) :=
    List.getLast?_concat _
  rw [h] at h1
  have h2 : src.getLast?.getD "" = pre ++ lastName src := by rw [h1]; rfl
  have h2' : lastName src = pre ++ lastName src := h2
  have h3 := congrArg String.length h2'
  rw [String.length_append] at h3
  omega

/-- C3.  For the cookies parser and for the history parser's
`DatabaseManager` scope, on an existing source file and on every exit
disposition of the SQLite phase (normal, `sqlite3.Error`, or any other
exception), the temp snapshot path does not exist after the call and the
source file's content is unchanged. -/
theorem C3_snapshot_cleanup (temp_dir cookies_path history_path : FsPath)
    (outcome : DbOutcome) (fs : Fs)
    (hc : fsExists fs cookies_path = true) (hh : fsExists fs history_path = true) :
    (fsRead (parse_cookies_file_fs temp_dir cookies_path outcome fs)
        (temp_dir ++ [temp_cookies_name cookies_path]) = none ∧
      fsRead (parse_cookies_file_fs temp_dir cookies_path outcome fs) cookies_path =
        fsRead fs cookies_path) ∧
    (fsRead (parse_history_fs history_path outcome fs)
        (history_path.dropLast ++ [temp_history_name history_path]) = none ∧
      fsRead (parse_history_fs history_path outcome fs) history_path =
        fsRead fs history_path) := by
  have hne_c : temp_dir ++ [temp_cookies_name cookies_path] ≠ cookies_path := by
    simpa [temp_cookies_name] using
      concat_prefixed_lastName_ne temp_dir cookies_path "temp_cookies_" (by decide)
  have hne_h : history_path.dropLast ++ [temp_history_name history_path] ≠ history_path := by
    simpa [temp_history_name] using
      concat_prefixed_lastName_ne history_path.dropLast history_path "temp_history_" (by decide)
  constructor
  · simp only [parse_cookies_file_fs, hc]
    cases outcome <;>
      simp only [Bool.true_eq_false, if_false, fsExists_fsWrite_self, if_true] <;>
      exact ⟨fsRead_fsErase_self _ _, by
        rw [fsRead_fsErase_ne _ _ _ (Ne.symm hne_c)]
        exact fsRead_fsWrite_ne _ _ _ _ (Ne.symm hne_c)⟩
  · simp only [parse_history_fs, database_manager_scope_fs, hh]
    cases outcome <;>
      simp only [Bool.true_eq_false, if_false, fsExists_fsWrite_self, if_true] <;>
      exact ⟨fsRead_fsErase_self _ _, by
        rw [fsRead_fsErase_ne _ _ _ (Ne.symm hne_h)]
        exact fsRead_fsWrite_ne _ _ _ _ (Ne.symm hne_h)⟩

/-- Witness for C3 at a concrete filesystem with one cookies store and one
history store, on the `sqliteError` disposition. -/
theorem C3_snapshot_cleanup_witness :
    fsExists [(["p", "Cookies"], [1, 2]), (["q", "History"], [3])] ["p", "Cookies"] = true ∧
    fsExists [(["p", "Cookies"], [1, 2]), (["q", "History"], [3])] ["q", "History"] = true ∧
    ((fsRead (parse_cookies_file_fs ["tmp"] ["p", "Cookies"] .sqliteError
          [(["p", "Cookies"], [1, 2]), (["q", "History"], [3])])
        (["tmp"] ++ [temp_cookies_name ["p", "Cookies"]]) = none ∧
      fsRead (parse_cookies_file_fs ["tmp"] ["p", "Cookies"] .sqliteError
          [(["p", "Cookies"], [1, 2]), (["q", "History"], [3])]) ["p", "Cookies"] =
        fsRead [(["p", "Cookies"], [1, 2]), (["q", "History"], [3])] ["p", "Cookies"]) ∧
      (fsRead (parse_history_fs ["q", "History"] .sqliteError
          [(["p", "Cookies"], [1, 2]), (["q", "History"], [3])])
        ((["q", "History"] : FsPath).dropLast ++ [temp_history_name ["q", "History"]]) = none ∧
      fsRead (parse_history_fs ["q", "History"] .sqliteError
          [(["p", "Cookies"], [1, 2]), (["q", "History"], [3])]) ["q", "History"] =
        fsRead [(["p", "Cookies"], [1, 2]), (["q", "History"], [3])] ["q", "History"])) :=
  ⟨by decide, by decide,
    C3_snapshot_cleanup ["tmp"] ["p", "Cookies"] ["q", "History"] .sqliteError
      [(["p", "Cookies"], [1, 2]), (["q", "History"], [3])] (by decide) (by decide)⟩

/-! ## Temp-name distinctness (C5) -/

theorem string_append_left_cancel (p a b : String) (h : p ++ a = p ++ b) : a = b := by
  have hd := congrArg String.data h
  rw [String.data_append, String.data_append] at hd
  exact String.ext (List.append_cancel_left hd)

theorem string_append_ne_of_take13_ne (p q a b : String)
    (hp : 13 ≤ p.data.length) (hq : 13 ≤ q.data.length)
    (hne : p.data.take 13 ≠ q.data.take 13) : p ++ a ≠ q ++ b := by
  intro h
  have hd := congrArg String.data h
  rw [String.data_append, String.data_append] at hd
  have ht := congrArg (List.take 13) hd
  rw [List.take_append_of_le_length hp, List.take_append_of_le_length hq] at ht
  exact hne ht

/-- C5, amended.  For any two snapshotted sources: within one artifact
kind the generated temp names are equal exactly when the source basenames
are equal — so two sources sharing a basename (the counterexample)
collide and sources with distinct basenames do not — while across the
three artifact kinds the `temp_cookies_` / `temp_history_` /
`temp_downloads_` markers keep the names distinct unconditionally, even
for the same source file (e.g. the one `History` store snapshotted by both
the history and downloads parsers). -/
theorem C5_amended_temp_names (s1 s2 : FsPath) :
    ((temp_cookies_name s1 = temp_cookies_name s2 ↔ lastName s1 = lastName s2) ∧
      (temp_history_name s1 = temp_history_name s2 ↔ lastName s1 = lastName s2) ∧
      (temp_downloads_name s1 = temp_downloads_name s2 ↔ lastName s1 = lastName s2)) ∧
    (temp_cookies_name s1 ≠ temp_history_name s2 ∧
      temp_cookies_name s1 ≠ temp_downloads_name s2 ∧
      temp_history_name s1 ≠ temp_downloads_name s2) := by
  refine ⟨⟨⟨?_, ?_⟩, ⟨?_, ?_⟩, ⟨?_, ?_⟩⟩, ?_, ?_, ?_⟩
  · exact fun h => string_append_left_cancel "temp_cookies_" _ _ h
  · intro h
    unfold temp_cookies_name
    rw [h]
  · exact fun h => string_append_left_cancel "temp_history_" _ _ h
  · intro h
    unfold temp_history_name
    rw [h]
  · exact fun h => string_append_left_cancel "temp_downloads_" _ _ h
  · intro h
    unfold temp_downloads_name
    rw [h]
  · exact string_append_ne_of_take13_ne "temp_cookies_" "temp_history_" _ _
      (by decide) (by decide) (by decide)
  · exact string_append_ne_of_take13_ne "temp_cookies_" "temp_downloads_" _ _
      (by decide) (by decide) (by decide)
  · exact string_append_ne_of_take13_ne "temp_history_" "temp_downloads_" _ _
      (by decide) (by decide) (by decide)

/-! ## Cookie heuristic and placeholder claims (C7, C10) -/

theorem utf8DecodeIgnore_ascii_cons (b : Nat) (bs : List Nat) (hb : b < 128) :
    utf8DecodeIgnore (b :: bs) = Char.ofNat b :: utf8DecodeIgnore bs := by
  show utf8DecodeIgnoreF (b :: bs).length (b :: bs) = _
  rw [List.length_cons]
  simp [utf8DecodeIgnoreF, hb, utf8DecodeIgnore]

/-- C7.  Resolving a cookie with empty plaintext, no oracle entry for its
`host|name` key, and an encrypted blob of `b"v10"` followed by any 20
bytes returns — without raising — the opaque placeholder, which mentions
the scheme `v10` and the blob's byte length 23. -/
theorem C7_v10_opaque_placeholder (cc : PyCharClass) (name host_key : PyStr)
    (decrypted_cookies : List (PyStr × PyStr)) (rest : List Nat)
    (hlen : rest.length = 20)
    (horacle : dictLookup (host_key ++ pystr "|" ++ name) decrypted_cookies = none) :
    get_cookie_value cc name host_key [] (118 :: 49 :: 48 :: rest) decrypted_cookies =
      .ok (pystr "[зашифровано AES-GCM v10: 23 байт]") ∧
    pyContains (pystr "[зашифровано AES-GCM v10: 23 байт]") (pystr "v10") = true ∧
    pyContains (pystr "[зашифровано AES-GCM v10: 23 байт]") (pystr "23") = true := by
  refine ⟨?_, by decide, by decide⟩
  have hdec : utf8DecodeIgnore (118 :: 49 :: 48 :: rest) =
      'v' :: '1' :: '0' :: utf8DecodeIgnore rest := by
    rw [utf8DecodeIgnore_ascii_cons 118 _ (by omega), utf8DecodeIgnore_ascii_cons 49 _ (by omega),
      utf8DecodeIgnore_ascii_cons 48 _ (by omega)]
  have hstarts : pyStartsWith (utf8DecodeIgnore (118 :: 49 :: 48 :: rest)) (pystr "v10") = true := by
    rw [hdec]
    simp [pyStartsWith, pystr, List.isPrefixOf]
  have hblen : (118 :: 49 :: 48 :: rest).length = 23 := by simp [hlen]
  have hdecrypt : decrypt_cookie_value cc (118 :: 49 :: 48 :: rest) =
      pystr "[зашифровано AES-GCM v10: 23 байт]" := by
    rw [decrypt_cookie_value]
    rw [if_neg (by simp)]
    rw [if_neg (by simp [hstarts])]
    rw [if_pos (by simp [bytesStartWith, List.isPrefixOf])]
    rw [hblen]
    rfl
  rw [List.append_assoc] at horacle
  rw [get_cookie_value]
  rw [if_neg (by simp)]
  rw [if_neg (by simp [horacle])]
  rw [if_pos (by simp)]
  rw [hdecrypt]
  decide

/-- Witness for C7 on a concrete 20-byte tail and an empty oracle. -/
theorem C7_v10_opaque_placeholder_witness :
    (List.replicate 20 7).length = 20 ∧
    dictLookup (pystr "example.com" ++ pystr "|" ++ pystr "sid") [] = none ∧
    get_cookie_value ⟨fun _ => true, fun _ => false⟩ (pystr "sid") (pystr "example.com") []
        (118 :: 49 :: 48 :: List.replicate 20 7) [] =
      .ok (pystr "[зашифровано AES-GCM v10: 23 байт]") :=
  ⟨by decide, by decide,
    (C7_v10_opaque_placeholder ⟨fun _ => true, fun _ => false⟩ (pystr "sid") (pystr "example.com")
      [] (List.replicate 20 7) (by decide) (by decide)).1⟩

/-- C10.  Whenever the heuristic-cleanup tier applies — non-empty decoded
text that does not start with `v10`/`v11` and has a printable or space
character among its first 100 characters — the resolver surfaces exactly
the first 500 characters of the decoded text, so the fragment never
exceeds 500 characters. -/
theorem C10_heuristic_tier_caps_length (cc : PyCharClass) (ev : List Nat)
    (h1 : utf8DecodeIgnore ev ≠ [])
    (h2 : pyStartsWith (utf8DecodeIgnore ev) (pystr "v10") = false)
    (h3 : pyStartsWith (utf8DecodeIgnore ev) (pystr "v11") = false)
    (h4 : ((utf8DecodeIgnore ev).take 100).any (fun c => cc.isPrintable c || cc.isSpace c) = true) :
    decrypt_cookie_value cc ev = (utf8DecodeIgnore ev).take 500 ∧
    (decrypt_cookie_value cc ev).length ≤ 500 := by
  have hne : ev ≠ [] := by
    intro h
    rw [h] at h1
    exact h1 rfl
  have hres : decrypt_cookie_value cc ev = (utf8DecodeIgnore ev).take 500 := by
    rw [decrypt_cookie_value]
    rw [if_neg hne]
    rw [if_pos (by exact ⟨⟨h1, by simp [h2, h3]⟩, h4⟩)]
  refine ⟨hres, ?_⟩
  rw [hres]
  simp [List.length_take]

/-- Witness for C10 on the readable blob `b"hello"` with an all-printable
character table. -/
theorem C10_heuristic_tier_caps_length_witness :
    utf8DecodeIgnore [104, 101, 108, 108, 111] ≠ [] ∧
    decrypt_cookie_value ⟨fun _ => true, fun _ => false⟩ [104, 101, 108, 108, 111] =
      (utf8DecodeIgnore [104, 101, 108, 108, 111]).take 500 :=
  ⟨by decide,
    (C10_heuristic_tier_caps_length ⟨fun _ => true, fun _ => false⟩ [104, 101, 108, 108, 111]
      (by decide) (by decide) (by decide) (by decide)).1⟩

/-! ## Monotonicity of the calendar conversion (C9) -/

theorem stepWalkF_irrel (len : Nat → Nat) (hlen : ∀ p, 0 < len p) :
    ∀ f1 f2 p d, d < f1 → d < f2 → stepWalkF len f1 p d = stepWalkF len f2 p d := by
  intro f1
  induction f1 with
  | zero => intro f2 p d h1; omega
  | succ f1' ih =>
    intro f2 p d h1 h2
    match f2, h2 with
    | f2' + 1, h2 =>
      show (if d < len p then (p, d) else stepWalkF len f1' (p + 1) (d - len p)) =
        (if d < len p then (p, d) else stepWalkF len f2' (p + 1) (d - len p))
      split
      · rfl
      · have hp := hlen p
        exact ih f2' (p + 1) (d - len p) (by omega) (by omega)

theorem walkAt_unfold (len : Nat → Nat) (hlen : ∀ p, 0 < len p) (p d : Nat) :
    walkAt len p d = if d < len p then (p, d) else walkAt len (p + 1) (d - len p) := by
  show (if d < len p then (p, d) else stepWalkF len d (p + 1) (d - len p)) = _
  split
  · rfl
  · have hp := hlen p
    exact stepWalkF_irrel len hlen d (d - len p + 1) (p + 1) (d - len p) (by omega) (by omega)

theorem walkAt_fst_ge (len : Nat → Nat) (hlen : ∀ p, 0 < len p) :
    ∀ d p, p ≤ (walkAt len p d).1 := by
  intro d
  induction d using Nat.strong_induction_on with
  | _ d ih =>
    intro p
    rw [walkAt_unfold len hlen]
    split
    · exact Nat.le_refl p
    · have hp := hlen p
      have h := ih (d - len p) (by omega) (p + 1)
      omega

theorem walkAt_rem_lt (len : Nat → Nat) (hlen : ∀ p, 0 < len p) :
    ∀ d p, (walkAt len p d).2 < len (walkAt len p d).1 := by
  intro d
  induction d using Nat.strong_induction_on with
  | _ d ih =>
    intro p
    rw [walkAt_unfold len hlen]
    split
    · simpa using by assumption
    · have hp := hlen p
      exact ih (d - len p) (by omega) (p + 1)

theorem walkAt_mono_lt (len : Nat → Nat) (hlen : ∀ p, 0 < len p) :
    ∀ d2 d1 p, d1 < d2 →
      (walkAt len p d1).1 < (walkAt len p d2).1 ∨
        ((walkAt len p d1).1 = (walkAt len p d2).1 ∧ (walkAt len p d1).2 < (walkAt len p d2).2) := by
  intro d2
  induction d2 using Nat.strong_induction_on with
  | _ d2 ih =>
    intro d1 p h12
    rw [walkAt_unfold len hlen (p := p) (d := d1), walkAt_unfold len hlen (p := p) (d := d2)]
    by_cases h1 : d1 < len p
    · by_cases h2 : d2 < len p
      · rw [if_pos h1, if_pos h2]
        exact Or.inr ⟨rfl, h12⟩
      · rw [if_pos h1, if_neg h2]
        have := walkAt_fst_ge len hlen (d2 - len p) (p + 1)
        exact Or.inl (by omega)
    · by_cases h2 : d2 < len p
      · omega
      · rw [if_neg h1, if_neg h2]
        have hp := hlen p
        exact ih (d2 - len p) (by omega) (d1 - len p) (p + 1) (by omega)

theorem walkAt_mono_le (len : Nat → Nat) (hlen : ∀ p, 0 < len p)
    (d1 d2 p : Nat) (h12 : d1 ≤ d2) :
    (walkAt len p d1).1 < (walkAt len p d2).1 ∨
      ((walkAt len p d1).1 = (walkAt len p d2).1 ∧ (walkAt len p d1).2 ≤ (walkAt len p d2).2) := by
  rcases Nat.lt_or_ge d1 d2 with h | h
  · rcases walkAt_mono_lt len hlen d2 d1 p h with h' | ⟨he, hs⟩
    · exact Or.inl h'
    · exact Or.inr ⟨he, Nat.le_of_lt hs⟩
  · have : d1 = d2 := by omega
    subst this
    exact Or.inr ⟨rfl, Nat.le_refl _⟩

theorem daysInYear_pos : ∀ y, 0 < daysInYear y := by
  intro y
  unfold daysInYear
  split <;> omega

theorem monthLen_pos : ∀ leap m, 0 < monthLen leap m := by
  intro leap m
  unfold monthLen
  split <;> first | (split <;> omega) | omega

theorem monthLen_le_31 : ∀ leap m, monthLen leap m ≤ 31 := by
  intro leap m
  unfold monthLen
  split <;> first | (split <;> omega) | omega

theorem isLeap_iff (y : Nat) :
    isLeap y = true ↔ ((y % 4 = 0 ∧ y % 100 ≠ 0) ∨ y % 400 = 0) := by
  simp [isLeap, Bool.or_eq_true, Bool.and_eq_true, beq_iff_eq, bne_iff_ne]

theorem daysBeforeYear_succ (y : Nat) (hy : 1 ≤ y) :
    daysBeforeYear (y + 1) = daysBeforeYear y + daysInYear y := by
  unfold daysBeforeYear daysInYear
  have i4 : y / 4 = (y - 1) / 4 + (if y % 4 = 0 then 1 else 0) := by split <;> omega
  have i100 : y / 100 = (y - 1) / 100 + (if y % 100 = 0 then 1 else 0) := by split <;> omega
  have i400 : y / 400 = (y - 1) / 400 + (if y % 400 = 0 then 1 else 0) := by split <;> omega
  have imp1 : y % 400 = 0 → y % 100 = 0 := by omega
  have imp3 : y % 100 = 0 → y % 4 = 0 := by omega
  have hq : (y - 1) / 100 ≤ (y - 1) / 4 := Nat.div_le_div_left (by omega) (by omega)
  simp only [Nat.add_sub_cancel]
  by_cases h : isLeap y = true
  · rw [if_pos h]
    rw [isLeap_iff] at h
    rcases h with ⟨h1, h2⟩ | h1
    · rw [i4, i100, i400, if_pos h1, if_neg h2, if_neg (by omega)]
      omega
    · rw [i4, i100, i400, if_pos (imp3 (imp1 h1)), if_pos (imp1 h1), if_pos h1]
      omega
  · rw [if_neg h]
    rw [isLeap_iff] at h
    push_neg at h
    obtain ⟨ha, hb⟩ := h
    by_cases h4 : y % 4 = 0
    · rw [i4, i100, i400, if_pos h4, if_pos (ha h4), if_neg hb]
      omega
    · rw [i4, i100, i400, if_neg h4, if_neg (fun hc => h4 (imp3 hc)),
        if_neg (fun hc => h4 (imp3 (imp1 hc)))]
      omega

theorem daysBeforeYear_mono (y1 y2 : Nat) (h : y1 ≤ y2) :
    daysBeforeYear y1 ≤ daysBeforeYear y2 := by
  have h4 : (y1 - 1) / 4 ≤ (y2 - 1) / 4 := Nat.div_le_div_right (by omega)
  have h100 : (y1 - 1) / 100 ≤ (y2 - 1) / 100 := Nat.div_le_div_right (by omega)
  have h400 : (y1 - 1) / 400 ≤ (y2 - 1) / 400 := Nat.div_le_div_right (by omega)
  have hq1 : (y1 - 1) / 100 ≤ (y1 - 1) / 4 := Nat.div_le_div_left (by omega) (by omega)
  have hq2 : (y2 - 1) / 100 ≤ (y2 - 1) / 4 := Nat.div_le_div_left (by omega) (by omega)
  unfold daysBeforeYear
  omega

theorem daysInYear_le_366 (y : Nat) : daysInYear y ≤ 366 := by
  unfold daysInYear
  split <;> omega

theorem walk_year_invariant : ∀ d p, 1 ≤ p →
    daysBeforeYear (walkAt daysInYear p d).1 + (walkAt daysInYear p d).2 =
      daysBeforeYear p + d := by
  intro d
  induction d using Nat.strong_induction_on with
  | _ d ih =>
    intro p hp
    rw [walkAt_unfold daysInYear daysInYear_pos]
    split
    · rfl
    · have hlp := daysInYear_pos p
      have hrec := ih (d - daysInYear p) (by omega) (p + 1) (by omega)
      rw [hrec, daysBeforeYear_succ p hp]
      omega

theorem year_upper_bound (d : Nat) (hd : d ≤ 3652058) :
    (walkAt daysInYear 1 d).1 ≤ 9999 := by
  by_contra hgt
  have h1 := walk_year_invariant d 1 (by omega)
  have h2 : daysBeforeYear 10000 ≤ daysBeforeYear (walkAt daysInYear 1 d).1 :=
    daysBeforeYear_mono _ _ (by omega)
  have h3 : daysBeforeYear 10000 = 3652059 := by decide
  have h4 : daysBeforeYear 1 = 0 := by decide
  omega

theorem year_lower_bound (d : Nat) (hd : 584388 ≤ d) :
    1601 ≤ (walkAt daysInYear 1 d).1 := by
  by_contra hlt
  have h1 := walk_year_invariant d 1 (by omega)
  have h2 : daysBeforeYear (walkAt daysInYear 1 d).1 ≤ daysBeforeYear 1600 :=
    daysBeforeYear_mono _ _ (by omega)
  have h3 : daysBeforeYear 1600 = 584022 := by decide
  have h4 : daysBeforeYear 1 = 0 := by decide
  have h5 := walkAt_rem_lt daysInYear daysInYear_pos d 1
  have h6 := daysInYear_le_366 (walkAt daysInYear 1 d).1
  omega

theorem cumMonthDays_succ (leap : Bool) (m : Nat) (hm : 1 ≤ m) :
    cumMonthDays leap (m + 1) = cumMonthDays leap m + monthLen leap m := by
  show cumMonthDays leap m + (if m = 0 then 0 else monthLen leap m) = _
  rw [if_neg (by omega)]

theorem cumMonthDays_le_succ (leap : Bool) (m : Nat) :
    cumMonthDays leap m ≤ cumMonthDays leap (m + 1) := by
  show cumMonthDays leap m ≤ cumMonthDays leap m + _
  exact Nat.le_add_right _ _

theorem cumMonthDays_mono (leap : Bool) : ∀ m1 m2, m1 ≤ m2 →
    cumMonthDays leap m1 ≤ cumMonthDays leap m2 := by
  intro m1 m2 h
  induction m2 with
  | zero =>
    have h0 : m1 = 0 := by omega
    subst h0
    exact Nat.le_refl _
  | succ m ih =>
    rcases Nat.lt_or_ge m1 (m + 1) with hlt | hge
    · exact Nat.le_trans (ih (by omega)) (cumMonthDays_le_succ leap m)
    · have he : m1 = m + 1 := by omega
      subst he
      exact Nat.le_refl _

theorem walk_month_invariant (leap : Bool) : ∀ doy m, 1 ≤ m →
    cumMonthDays leap (walkAt (monthLen leap) m doy).1 + (walkAt (monthLen leap) m doy).2 =
      cumMonthDays leap m + doy := by
  intro doy
  induction doy using Nat.strong_induction_on with
  | _ doy ih =>
    intro m hm
    rw [walkAt_unfold (monthLen leap) (monthLen_pos leap)]
    split
    · rfl
    · have hlp := monthLen_pos leap m
      have hrec := ih (doy - monthLen leap m) (by omega) (m + 1) (by omega)
      rw [hrec, cumMonthDays_succ leap m hm]
      omega

theorem cumMonthDays_13 (leap : Bool) : cumMonthDays leap 13 = if leap then 366 else 365 := by
  cases leap <;> decide

theorem month_upper_bound (leap : Bool) (doy : Nat)
    (hdoy : doy < if leap then 366 else 365) :
    (walkAt (monthLen leap) 1 doy).1 ≤ 12 := by
  by_contra hgt
  have h1 := walk_month_invariant leap doy 1 (by omega)
  have h2 : cumMonthDays leap 13 ≤ cumMonthDays leap (walkAt (monthLen leap) 1 doy).1 :=
    cumMonthDays_mono leap 13 _ (by omega)
  have h3 := cumMonthDays_13 leap
  have h4 : cumMonthDays leap 1 = 0 := by cases leap <;> rfl
  cases leap <;> simp only [if_true, if_false, Bool.false_eq_true] at h3 hdoy <;> omega

theorem civilFromDays_bounds (d : Nat) (hd : d ≤ 3652058) :
    1 ≤ (civilFromDays d).1 ∧ (civilFromDays d).1 ≤ 9999 ∧
    1 ≤ (civilFromDays d).2.1 ∧ (civilFromDays d).2.1 ≤ 12 ∧
    1 ≤ (civilFromDays d).2.2 ∧ (civilFromDays d).2.2 ≤ 31 := by
  simp only [civilFromDays]
  have hy1 := walkAt_fst_ge daysInYear daysInYear_pos d 1
  have hy2 := year_upper_bound d hd
  have hdoy := walkAt_rem_lt daysInYear daysInYear_pos d 1
  have hm1 := walkAt_fst_ge (monthLen (isLeap (walkAt daysInYear 1 d).1)) (monthLen_pos _)
    (walkAt daysInYear 1 d).2 1
  have hrem := walkAt_rem_lt (monthLen (isLeap (walkAt daysInYear 1 d).1)) (monthLen_pos _)
    (walkAt daysInYear 1 d).2 1
  have hml := monthLen_le_31 (isLeap (walkAt daysInYear 1 d).1)
    ((walkAt (monthLen (isLeap (walkAt daysInYear 1 d).1)) 1 (walkAt daysInYear 1 d).2).1)
  have hdiy : daysInYear (walkAt daysInYear 1 d).1 =
      if isLeap (walkAt daysInYear 1 d).1 then 366 else 365 := rfl
  have hm12 : (walkAt (monthLen (isLeap (walkAt daysInYear 1 d).1)) 1
      (walkAt daysInYear 1 d).2).1 ≤ 12 :=
    month_upper_bound _ _ (hdiy ▸ hdoy)
  exact ⟨by omega, by omega, by omega, hm12, by omega, by omega⟩

theorem civilFromDays_year_lower (d : Nat) (hd : 584388 ≤ d) :
    1601 ≤ (civilFromDays d).1 := year_lower_bound d hd

theorem civilFromDays_mono_lt (d1 d2 : Nat) (h : d1 < d2) :
    (civilFromDays d1).1 < (civilFromDays d2).1 ∨
      ((civilFromDays d1).1 = (civilFromDays d2).1 ∧
        ((civilFromDays d1).2.1 < (civilFromDays d2).2.1 ∨
          ((civilFromDays d1).2.1 = (civilFromDays d2).2.1 ∧
            (civilFromDays d1).2.2 < (civilFromDays d2).2.2))) := by
  simp only [civilFromDays]
  rcases walkAt_mono_lt daysInYear daysInYear_pos d2 d1 1 h with hy | ⟨hyeq, hdoy⟩
  · exact Or.inl hy
  · rw [hyeq]
    rcases walkAt_mono_lt (monthLen (isLeap (walkAt daysInYear 1 d2).1)) (monthLen_pos _)
        (walkAt daysInYear 1 d2).2 (walkAt daysInYear 1 d1).2 1 hdoy with hm | ⟨hmeq, hrem⟩
    · exact Or.inr ⟨rfl, Or.inl hm⟩
    · exact Or.inr ⟨rfl, Or.inr ⟨hmeq, by omega⟩⟩

theorem blt_self_false (x : Nat) : Nat.blt x x = false := by
  cases h : Nat.blt x x
  · rfl
  · rw [Nat.blt_eq] at h
    omega

theorem strLexLe_cons_same (c : Char) (x y : List Char) :
    strLexLe (c :: x) (c :: y) = strLexLe x y := by
  show (Nat.blt c.toNat c.toNat || (c.toNat == c.toNat && strLexLe x y)) = strLexLe x y
  rw [blt_self_false, beq_self_eq_true]
  simp

theorem strLexLt_cons_same (c : Char) (x y : List Char) :
    strLexLt (c :: x) (c :: y) = strLexLt x y := by
  show (Nat.blt c.toNat c.toNat || (c.toNat == c.toNat && strLexLt x y)) = strLexLt x y
  rw [blt_self_false, beq_self_eq_true]
  simp

theorem strLexLe_append_same : ∀ a c d : List Char,
    strLexLe (a ++ c) (a ++ d) = strLexLe c d := by
  intro a
  induction a with
  | nil => intro c d; rfl
  | cons x xs ih =>
    intro c d
    show strLexLe (x :: (xs ++ c)) (x :: (xs ++ d)) = _
    rw [strLexLe_cons_same]
    exact ih c d

theorem strLexLt_append_same : ∀ a c d : List Char,
    strLexLt (a ++ c) (a ++ d) = strLexLt c d := by
  intro a
  induction a with
  | nil => intro c d; rfl
  | cons x xs ih =>
    intro c d
    show strLexLt (x :: (xs ++ c)) (x :: (xs ++ d)) = _
    rw [strLexLt_cons_same]
    exact ih c d

theorem strLexLt_append : ∀ a b c d : List Char, a.length = b.length →
    strLexLt a b = true → strLexLt (a ++ c) (b ++ d) = true := by
  intro a
  induction a with
  | nil =>
    intro b c d hlen h
    match b, hlen with
    | [], _ => exact absurd h (by decide)
  | cons x xs ih =>
    intro b c d hlen h
    match b, hlen with
    | y :: ys, hlen =>
      show (Nat.blt x.toNat y.toNat || (x.toNat == y.toNat && strLexLt (xs ++ c) (ys ++ d))) = true
      have h' : (Nat.blt x.toNat y.toNat || (x.toNat == y.toNat && strLexLt xs ys)) = true := h
      rcases Bool.or_eq_true_iff.mp h' with hb | hand
      · rw [hb]
        rfl
      · have h1 := (Bool.and_eq_true _ _).mp hand
        rw [h1.1, ih ys c d (by simpa using hlen) h1.2]
        simp

theorem strLexLe_of_lt : ∀ a b : List Char, strLexLt a b = true → strLexLe a b = true := by
  intro a
  induction a with
  | nil => intro b _; rfl
  | cons x xs ih =>
    intro b h
    match b with
    | [] => exact Bool.noConfusion h
    | y :: ys =>
      have h' : (Nat.blt x.toNat y.toNat || (x.toNat == y.toNat && strLexLt xs ys)) = true := h
      show (Nat.blt x.toNat y.toNat || (x.toNat == y.toNat && strLexLe xs ys)) = true
      rcases Bool.or_eq_true_iff.mp h' with hb | hand
      · rw [hb]
        rfl
      · have h1 := (Bool.and_eq_true _ _).mp hand
        rw [h1.1, ih ys h1.2]
        simp

theorem strLexLe_refl : ∀ a : List Char, strLexLe a a = true := by
  intro a
  induction a with
  | nil => rfl
  | cons x xs ih =>
    rw [strLexLe_cons_same]
    exact ih

theorem pad2_le : ∀ b, b < 100 → ∀ a, a ≤ b → strLexLe (pad2 a) (pad2 b) = true := by
  decide

theorem pad2_lt : ∀ b, b < 100 → ∀ a, a < b → strLexLt (pad2 a) (pad2 b) = true := by
  decide

theorem pad4_le (a b : Nat) (hab : a ≤ b) (hb : b < 10000) :
    strLexLe (pad4 a) (pad4 b) = true := by
  show strLexLe (pad2 (a / 100) ++ pad2 (a % 100)) (pad2 (b / 100) ++ pad2 (b % 100)) = true
  rcases Nat.lt_or_ge (a / 100) (b / 100) with h | h
  · exact strLexLe_of_lt _ _ (strLexLt_append _ _ _ _ rfl (pad2_lt (b / 100) (by omega) _ h))
  · have he : a / 100 = b / 100 := by omega
    rw [he, strLexLe_append_same]
    exact pad2_le (b % 100) (by omega) (a % 100) (by omega)

theorem pad4_lt (a b : Nat) (hab : a < b) (hb : b < 10000) :
    strLexLt (pad4 a) (pad4 b) = true := by
  show strLexLt (pad2 (a / 100) ++ pad2 (a % 100)) (pad2 (b / 100) ++ pad2 (b % 100)) = true
  rcases Nat.lt_or_ge (a / 100) (b / 100) with h | h
  · exact strLexLt_append _ _ _ _ rfl (pad2_lt (b / 100) (by omega) _ h)
  · have he : a / 100 = b / 100 := by omega
    rw [he, strLexLt_append_same]
    exact pad2_lt (b % 100) (by omega) (a % 100) (by omega)

theorem renderCal_le_of_date_lt (y1 m1 d1 h1 mi1 s1 y2 m2 d2 h2 mi2 s2 : Nat)
    (hy1lo : 1000 ≤ y1) (hy12 : y1 ≤ y2) (hy2hi : y2 < 10000)
    (hm2 : m2 < 100) (hd2 : d2 < 100)
    (hdate : y1 < y2 ∨ (y1 = y2 ∧ (m1 < m2 ∨ (m1 = m2 ∧ d1 < d2)))) :
    strLexLe (renderCal y1 m1 d1 h1 mi1 s1) (renderCal y2 m2 d2 h2 mi2 s2) = true := by
  unfold renderCal yearChars
  rw [if_neg (by omega), if_neg (by omega)]
  simp only [List.append_assoc, List.cons_append]
  rcases hdate with hy | ⟨hyeq, hmd⟩
  · exact strLexLe_of_lt _ _ (strLexLt_append _ _ _ _ rfl (pad4_lt y1 y2 hy hy2hi))
  · subst hyeq
    rw [strLexLe_append_same, strLexLe_cons_same]
    rcases hmd with hm | ⟨hmeq, hd⟩
    · exact strLexLe_of_lt _ _ (strLexLt_append _ _ _ _ rfl (pad2_lt m2 hm2 m1 hm))
    · subst hmeq
      rw [strLexLe_append_same, strLexLe_cons_same]
      exact strLexLe_of_lt _ _ (strLexLt_append _ _ _ _ rfl (pad2_lt d2 hd2 d1 hd))

theorem renderCal_le_of_date_eq (y m d h1 mi1 s1 h2 mi2 s2 : Nat)
    (hh2 : h2 < 100) (hmi2 : mi2 < 100) (hs2 : s2 < 100)
    (htime : h1 < h2 ∨ (h1 = h2 ∧ (mi1 < mi2 ∨ (mi1 = mi2 ∧ s1 ≤ s2)))) :
    strLexLe (renderCal y m d h1 mi1 s1) (renderCal y m d h2 mi2 s2) = true := by
  unfold renderCal
  simp only [List.append_assoc, List.cons_append]
  rw [strLexLe_append_same, strLexLe_cons_same, strLexLe_append_same, strLexLe_cons_same,
    strLexLe_append_same, strLexLe_cons_same]
  rcases htime with hh | ⟨hheq, hrest⟩
  · exact strLexLe_of_lt _ _ (strLexLt_append _ _ _ _ rfl (pad2_lt h2 hh2 h1 hh))
  · subst hheq
    rw [strLexLe_append_same, strLexLe_cons_same]
    rcases hrest with hmi | ⟨hmieq, hs⟩
    · exact strLexLe_of_lt _ _ (strLexLt_append _ _ _ _ rfl (pad2_lt mi2 hmi2 mi1 hmi))
    · subst hmieq
      rw [strLexLe_append_same, strLexLe_cons_same]
      exact pad2_le s2 hs2 s1 hs

theorem calFromSec0_mono (s1 s2 : Nat) (h1lo : 50491123200 ≤ s1) (h12 : s1 ≤ s2)
    (h2hi : s2 ≤ 315537897599) :
    strLexLe (calFromSec0 s1) (calFromSec0 s2) = true := by
  simp only [calFromSec0]
  have hd12 : s1 / 86400 ≤ s2 / 86400 := Nat.div_le_div_right h12
  have hd1lo : 584388 ≤ s1 / 86400 := by omega
  have hd2hi : s2 / 86400 ≤ 3652058 := by omega
  rcases Nat.lt_or_ge (s1 / 86400) (s2 / 86400) with hlt | hge
  · have hb1 := civilFromDays_bounds (s1 / 86400) (by omega)
    have hb2 := civilFromDays_bounds (s2 / 86400) (by omega)
    have hyl1 := civilFromDays_year_lower (s1 / 86400) hd1lo
    have hmono := civilFromDays_mono_lt _ _ hlt
    apply renderCal_le_of_date_lt
    · omega
    · rcases hmono with h | ⟨he, _⟩
      · omega
      · omega
    · omega
    · omega
    · omega
    · exact hmono
  · have he : s1 / 86400 = s2 / 86400 := by omega
    rw [he]
    have hsod : s1 % 86400 ≤ s2 % 86400 := by omega
    apply renderCal_le_of_date_eq
    · omega
    · omega
    · omega
    · omega

theorem commonOnInt_natCast (n : Nat) (hn : n ≠ 0) (hle : n ≤ 265046774399999999) :
    commonOnInt (n : Int) = calFromSec0 (n / 1000000 + 50491123200) := by
  have hf : Int.fdiv (n : Int) 1000000 = ((n / 1000000 : Nat) : Int) := by
    rw [Int.fdiv_eq_tdiv (by positivity) (by norm_num)]
    exact_mod_cast (Int.ofNat_tdiv n 1000000).symm
  simp only [commonOnInt, chromeCalendarFromSeconds, chromeEpochSec0, maxChromeSec]
  rw [if_neg (by omega), hf, if_pos (by constructor <;> omega)]
  have ht : (((n / 1000000 : Nat) : Int) + 50491123200).toNat = n / 1000000 + 50491123200 := by
    omega
  rw [ht]

/-- C9, amended.  On the unset input 0 and on all inputs within the
representable calendar range (kept one second clear of the year-9999
overflow boundary, where the source's float division blurs the cutoff by
a few microseconds), the Common conversion is monotonic non-decreasing
under the calendar-string ordering with the empty sentinel least; inputs
beyond that range collapse to the empty sentinel, which is what breaks the
claim as stated (see the counterexample). -/
theorem C9_amended_monotone (a b : Int) (ha : 0 ≤ a) (hab : a ≤ b)
    (hb : b ≤ 265046774398999999) :
    strLexLe (commonOnInt a) (commonOnInt b) = true := by
  by_cases ha0 : a = 0
  · subst ha0
    rfl
  · have h1 : a = ((a.toNat : Nat) : Int) := by omega
    have h2 : b = ((b.toNat : Nat) : Int) := by omega
    rw [h1, h2, commonOnInt_natCast a.toNat (by omega) (by omega),
      commonOnInt_natCast b.toNat (by omega) (by omega)]
    apply calFromSec0_mono
    · omega
    · have hab' : a.toNat ≤ b.toNat := by omega
      have := Nat.div_le_div_right (c := 1000000) hab'
      omega
    · have hble : b.toNat ≤ 265046774398999999 := by omega
      have : b.toNat / 1000000 ≤ 265046774398999999 / 1000000 := Nat.div_le_div_right hble
      omega

set_option maxRecDepth 1000000 in
/-- C9, counterexample.  The claim asserts monotonicity with the empty
sentinel as the least element for all integer inputs; taking the spec's
own pinned timestamp and a larger out-of-range input, the first converts
to a non-empty 2023 calendar string while the larger one overflows to the
empty sentinel, so the ordering is violated. -/
theorem C9_counterexample_overflow_to_empty :
    (13318267369295313 : Int) ≤ 10000000000000000000 ∧
    commonOnInt 13318267369295313 ≠ [] ∧
    commonOnInt 10000000000000000000 = [] ∧
    strLexLe (commonOnInt 13318267369295313) (commonOnInt 10000000000000000000) = false := by
  refine ⟨by decide, ?_, by decide, ?_⟩
  · decide
  · decide

set_option maxRecDepth 1000000 in
/-- Witness for the amended C9 statement on the spec's pinned timestamp
and the same instant one day later. -/
theorem C9_amended_monotone_witness :
    (0 : Int) ≤ 13318267369295313 ∧
    (13318267369295313 : Int) ≤ 13318353769295313 ∧
    (13318353769295313 : Int) ≤ 265046774398999999 ∧
    strLexLe (commonOnInt 13318267369295313) (commonOnInt 13318353769295313) = true :=
  ⟨by decide, by decide, by decide,
    C9_amended_monotone 13318267369295313 13318353769295313 (by decide) (by decide) (by decide)⟩
